import Mathlib

/-!
Shallow embedding of the codeasy-task geospatial service
(src/src/services/geoService.ts, src/src/services/dataService.ts,
src/src/models/types.ts) and verification of the specification claims.

Modelling conventions:
* JS numbers are modelled as real numbers; the dataset payload is untrusted,
  so a raw coordinate entry is modelled as a JS value that is either an actual
  number, a non-number value coercing to a number, or a value coercing to NaN.
  Non-array values at each nesting level are modelled by Option none.
* The turf library functions booleanPointInPolygon and booleanIntersects are
  external collaborators: the service functions are parametrised over them
  (the claims under verification do not depend on their internals).
* Infinity sentinels (the initial minDistance and the distance assigned to a
  throwing route) are modelled with WithTop ℝ; the value ⊤ is JS Infinity.
* Thrown-and-propagated exceptions are modelled with Except Unit; exceptions
  that the source catches and swallows locally do not escape any model
  function.
-/

namespace Codeasy

/-- JS value appearing inside a raw coordinates payload: an actual finite
number, a non-number value whose Number() coercion is a finite number
(for example a numeric string), or anything coercing to NaN. -/
inductive JSVal where
  | num (x : ℝ)
  | numlike (x : ℝ)
  | nan

/-- Number(v) coercion, with none standing for NaN. -/
def jsToNumber : JSVal → Option ℝ
  | JSVal.num x => some x
  | JSVal.numlike x => some x
  | JSVal.nan => none

/-- typeof v === number check together with the isNaN rejection:
some x exactly when v is an actual (finite) number. -/
def jsAsNumber : JSVal → Option ℝ
  | JSVal.num x => some x
  | _ => none

/-- A longitude/latitude pair. -/
abbrev Coord := ℝ × ℝ

/-- A raw position entry: none models a non-array value. -/
abbrev RawPos := Option (List JSVal)

/-- A raw ring entry: none models a non-array value. -/
abbrev RawRing := Option (List RawPos)

/-- A raw region.geometry.coordinates value: none models the whole chain
region?.geometry?.coordinates being missing / null / not an array. -/
abbrev RawCoords := Option (List RawRing)

/-- Point record of types.ts (createdAt is irrelevant to every claim and is
omitted; region collapses to its raw coordinates as described above). -/
structure Point where
  id : ℤ
  region : RawCoords

/-- Route record of types.ts; pointsOnRoutes is none when the field is not an
array (iterating it in JS throws), and the pointOnRoute.point wrapper is
collapsed. -/
structure Route where
  id : ℤ
  pointsOnRoutes : Option (List Point)

/-! ### Coordinate sanitizer (GeoService.ensureNumericCoordinates) -/

/-- One iteration of the inner point loop: skip non-arrays and arrays of
length below two, coerce the first two entries with Number(), skip when a
coercion yields NaN. -/
def sanitizePos (pos : RawPos) : Option Coord :=
  match pos with
  | none => none
  | some vals =>
    if vals.length < 2 then none
    else
      match (vals[0]?).bind jsToNumber, (vals[1]?).bind jsToNumber with
      | some x, some y => some (x, y)
      | _, _ => none

/-- Ring closing step: when the first and last cleaned points differ in either
component, append a copy of the first point. -/
noncomputable def closeRing (clean : List Coord) : List Coord :=
  match clean.head?, clean.getLast? with
  | some f, some l => if f.1 = l.1 ∧ f.2 = l.2 then clean else clean ++ [f]
  | _, _ => clean

/-- One iteration of the ring loop: clean the points, require at least three
cleaned points, close the ring, require at least four points after closing. -/
noncomputable def sanitizeRing (ring : RawRing) : Option (List Coord) :=
  match ring with
  | none => none
  | some pts =>
    let clean := pts.filterMap sanitizePos
    if 3 ≤ clean.length then
      let closed := closeRing clean
      if 4 ≤ closed.length then some closed else none
    else none

/-- GeoService.ensureNumericCoordinates: sanitize every ring, return null
(none) when the input is not an array or no ring survives. -/
noncomputable def ensureNumericCoordinates (coordinates : RawCoords) : Option (List (List Coord)) :=
  match coordinates with
  | none => none
  | some rings =>
    let result := rings.filterMap sanitizeRing
    if 0 < result.length then some result else none

/-! ### Geometric primitives -/

/-- GeoService.toRadians. -/
noncomputable def toRadians (degrees : ℝ) : ℝ := degrees * Real.pi / 180

/-- Math.atan2 with JS semantics (signed zeros collapse, so atan2 0 x for
x ≤ 0 returns the value JS gives for +0). -/
noncomputable def atan2 (y x : ℝ) : ℝ :=
  if 0 < x then Real.arctan (y / x)
  else if x < 0 then
    if 0 ≤ y then Real.arctan (y / x) + Real.pi else Real.arctan (y / x) - Real.pi
  else
    if 0 < y then Real.pi / 2 else if y < 0 then -(Real.pi / 2) else 0

/-- The local variable a of GeoService.haversineDistance. -/
noncomputable def havTerm (p1 p2 : Coord) : ℝ :=
  Real.sin (toRadians (p2.2 - p1.2) / 2) * Real.sin (toRadians (p2.2 - p1.2) / 2) +
    Real.cos (toRadians p1.2) * Real.cos (toRadians p2.2) *
      Real.sin (toRadians (p2.1 - p1.1) / 2) * Real.sin (toRadians (p2.1 - p1.1) / 2)

/-- GeoService.haversineDistance with Earth radius 6371 km. -/
noncomputable def haversineDistance (p1 p2 : Coord) : ℝ :=
  6371 * (2 * atan2 (Real.sqrt (havTerm p1 p2)) (Real.sqrt (1 - havTerm p1 p2)))

/-- GeoService.pointToLineDistance: planar projection of the point onto the
segment, clamped to the segment, then haversine to the clamped point. -/
noncomputable def pointToLineDistance (point lineStart lineEnd : Coord) : ℝ :=
  if lineStart.1 = lineEnd.1 ∧ lineStart.2 = lineEnd.2 then
    haversineDistance point lineStart
  else
    let dot := (point.1 - lineStart.1) * (lineEnd.1 - lineStart.1) +
      (point.2 - lineStart.2) * (lineEnd.2 - lineStart.2)
    let lenSq := (lineEnd.1 - lineStart.1) * (lineEnd.1 - lineStart.1) +
      (lineEnd.2 - lineStart.2) * (lineEnd.2 - lineStart.2)
    let param := if lenSq ≠ 0 then dot / lenSq else -1
    if param < 0 then haversineDistance point lineStart
    else if 1 < param then haversineDistance point lineEnd
    else
      haversineDistance point
        (lineStart.1 + param * (lineEnd.1 - lineStart.1),
         lineStart.2 + param * (lineEnd.2 - lineStart.2))

/-- Consecutive vertex pairs of a ring, the segments of the inner loop of
GeoService.calculateMinimumDistanceManually. -/
def ringEdges (ring : List Coord) : List (Coord × Coord) := ring.zip ring.tail

/-- GeoService.calculateMinimumDistanceManually: running minimum of the
point-to-segment distances over every edge of every ring, starting from
Infinity. -/
noncomputable def calculateMinimumDistanceManually (q : Coord)
    (polygonCoordinates : List (List Coord)) : WithTop ℝ :=
  polygonCoordinates.foldl
    (fun m ring =>
      (ringEdges ring).foldl
        (fun acc e => min ((pointToLineDistance q e.1 e.2 : ℝ) : WithTop ℝ) acc) m)
    ⊤

/-! ### Distance-to-route evaluator (GeoService.calculateDistanceToRoute) -/

/-- Loop body of GeoService.calculateDistanceToRoute over the points of a
route, carrying the running minimum. A region that is missing or that the
sanitizer rejects is skipped; a region containing the query point returns 0
for the whole route at once. The inPoly parameter is turf's
booleanPointInPolygon. -/
noncomputable def distLoop (inPoly : Coord → List (List Coord) → Bool) (q : Coord) :
    List Point → WithTop ℝ → WithTop ℝ
  | [], m => m
  | p :: rest, m =>
    match ensureNumericCoordinates p.region with
    | none => distLoop inPoly q rest m
    | some clean =>
      if inPoly q clean then 0
      else distLoop inPoly q rest (min (calculateMinimumDistanceManually q clean) m)

/-- GeoService.calculateDistanceToRoute; iterating a missing pointsOnRoutes
array throws, which the caller findNearestRoutes catches. -/
noncomputable def calculateDistanceToRoute (inPoly : Coord → List (List Coord) → Bool)
    (route : Route) (q : Coord) : Except Unit (WithTop ℝ) :=
  match route.pointsOnRoutes with
  | none => Except.error ()
  | some pts => Except.ok (distLoop inPoly q pts ⊤)

/-! ### Route ranking (GeoService.findNearestRoutes) -/

/-- Distance assigned to a route by findNearestRoutes: the computed distance,
or Infinity when the evaluation throws. -/
noncomputable def assignedDistance (inPoly : Coord → List (List Coord) → Bool)
    (q : Coord) (route : Route) : WithTop ℝ :=
  match calculateDistanceToRoute inPoly route q with
  | Except.ok d => d
  | Except.error _ => ⊤

noncomputable instance decRouteDistLE :
    DecidableRel (fun (a b : Route × WithTop ℝ) => a.2 ≤ b.2) :=
  fun a b => inferInstanceAs (Decidable (a.2 ≤ b.2))

instance totalRouteDistLE : IsTotal (Route × WithTop ℝ) (fun a b => a.2 ≤ b.2) :=
  ⟨fun a b => le_total a.2 b.2⟩

instance transRouteDistLE : IsTrans (Route × WithTop ℝ) (fun a b => a.2 ≤ b.2) :=
  ⟨fun _ _ _ h1 h2 => le_trans h1 h2⟩

/-- GeoService.findNearestRoutes: pair every route with its assigned distance,
sort ascending by distance, take the first count entries, and drop the
distances. The JS Array.prototype.sort with comparator
a.distance - b.distance is modelled as a stable sort by the induced order
(the comparator returns NaN only when both distances are Infinity, which the
JS sort treats as equal, exactly as the stable ≤ sort does). -/
noncomputable def findNearestRoutes (inPoly : Coord → List (List Coord) → Bool)
    (routes : List Route) (q : Coord) (count : ℕ) : List Route :=
  let routesWithDistance := routes.map (fun r => (r, assignedDistance inPoly q r))
  let sorted := List.insertionSort (fun a b => a.2 ≤ b.2) routesWithDistance
  (sorted.take count).map (fun x => x.1)

/-! ### Viewport membership (GeoService.findPointsInViewport) -/

/-- GeoService.arePointsEqual on cleaned coordinate pairs. -/
def arePointsEqual (p1 p2 : Coord) : Prop := p1.1 = p2.1 ∧ p1.2 = p2.2

/-- The first two numeric entries of a raw position, accepted only when the
entry is an array of length at least two whose first two entries are actual
numbers and not NaN (the typeof checks of isValidPolygonCoordinates). -/
def posNums (pos : RawPos) : Option Coord :=
  match pos with
  | none => none
  | some vals =>
    if vals.length < 2 then none
    else
      match (vals[0]?).bind jsAsNumber, (vals[1]?).bind jsAsNumber with
      | some x, some y => some (x, y)
      | _, _ => none

/-- Validity of one ring per GeoService.isValidPolygonCoordinates: an array of
at least four positions, every position an array of length at least two with
actual non-NaN numbers in the first two slots, and the first position equal to
the last in both slots. -/
def validRing (ring : RawRing) : Prop :=
  ∃ pts, ring = some pts ∧ 4 ≤ pts.length ∧ (∀ p ∈ pts, (posNums p).isSome) ∧
    ∃ f l fp lp, pts.head? = some f ∧ pts.getLast? = some l ∧
      posNums f = some fp ∧ posNums l = some lp ∧ arePointsEqual fp lp

/-- GeoService.isValidPolygonCoordinates on an array value: non-empty and
every ring valid. -/
def isValidPolygonCoordinates (rings : List RawRing) : Prop :=
  rings ≠ [] ∧ ∀ r ∈ rings, validRing r

/-- Numeric projection of validated raw coordinates, as handed to turf. -/
def extractCoords (rings : List RawRing) : List (List Coord) :=
  rings.filterMap (fun r =>
    match r with
    | none => none
    | some pts => some (pts.filterMap posNums))

/-- Ring of turf.bboxPolygon for the bbox [w, s, e, n]. -/
def bboxPolygon (w s e n : ℝ) : List (List Coord) :=
  [[(w, s), (e, s), (e, n), (w, n), (w, s)]]

/-- GeoService.isPointInViewport: false when the region chain is missing or
fails validation, otherwise the turf intersection test (the intersects
parameter models turf.booleanIntersects). -/
noncomputable def isPointInViewport
    (intersects : List (List Coord) → List (List Coord) → Bool)
    (p : Point) (bboxPoly : List (List Coord)) : Bool :=
  match p.region with
  | none => false
  | some rings =>
    if @decide (isValidPolygonCoordinates rings) (Classical.propDecidable _) then
      intersects (extractCoords rings) bboxPoly
    else false

/-- Inner forEach of GeoService.findPointsInViewport over the points of one
route, threading the insertion-ordered id-keyed map (modelled as an
association list): a point whose truthy id is already a key is skipped, a
point passing the viewport test is added only when its id is truthy. -/
def viewportLoop (inView : Point → Bool) :
    List Point → List (ℤ × Point) → List (ℤ × Point)
  | [], m => m
  | p :: rest, m =>
    if p.id ≠ 0 ∧ m.any (fun kv => kv.1 == p.id) then
      viewportLoop inView rest m
    else if inView p then
      if p.id ≠ 0 then viewportLoop inView rest (m ++ [(p.id, p)])
      else viewportLoop inView rest m
    else viewportLoop inView rest m

/-- Outer forEach of GeoService.findPointsInViewport over routes; a route
whose pointsOnRoutes is not an array makes the whole call throw. -/
def vpRoutes (inView : Point → Bool) :
    List Route → List (ℤ × Point) → Except Unit (List (ℤ × Point))
  | [], m => Except.ok m
  | r :: rest, m =>
    match r.pointsOnRoutes with
    | none => Except.error ()
    | some pts => vpRoutes inView rest (viewportLoop inView pts m)

/-- GeoService.findPointsInViewport: normalize the two corners into a bbox,
build the bbox polygon, collect unique points by id, return the map values. -/
noncomputable def findPointsInViewport
    (intersects : List (List Coord) → List (List Coord) → Bool)
    (routes : List Route) (lng1 lat1 lng2 lat2 : ℝ) : Except Unit (List Point) :=
  let bboxPoly := bboxPolygon (min lng1 lng2) (min lat1 lat2) (max lng1 lng2) (max lat1 lat2)
  match vpRoutes (fun p => isPointInViewport intersects p bboxPoly) routes [] with
  | Except.ok m => Except.ok (m.map (fun kv => kv.2))
  | Except.error e => Except.error e

/-! ### Dataset cache (DataService.getRoutes) -/

/-- Mutable state of the DataService singleton. -/
structure CacheState where
  cachedData : Option (List Route)
  lastFetchTime : ℤ

/-- CACHE_TTL = 1000 * 60 * 10 milliseconds. -/
def CACHE_TTL : ℤ := 1000 * 60 * 10

/-- DataService.getRoutes as a state transformer: the current time and the
outcome of the (single possible) external fetch are inputs; the result pairs
the returned value or thrown error with the updated cache state. The single
JS code path is split on whether a cached dataset exists (a cached array is
always truthy), which is observationally identical. -/
def getRoutes (st : CacheState) (now : ℤ) (fetch : Except Unit (List Route)) :
    Except Unit (List Route) × CacheState :=
  match st.cachedData with
  | some d =>
    if now - st.lastFetchTime < CACHE_TTL then (Except.ok d, st)
    else
      match fetch with
      | Except.ok data => (Except.ok data, ⟨some data, now⟩)
      | Except.error _ => (Except.ok d, st)
  | none =>
    match fetch with
    | Except.ok data => (Except.ok data, ⟨some data, now⟩)
    | Except.error _ => (Except.error (), st)

/-- Embedding of an already-numeric ring as a raw payload ring: every point
becomes a two-element array of actual numbers (used to state the idempotence
claim about the sanitizer). -/
def embedRing (r : List Coord) : RawRing :=
  some (r.map (fun p => some [JSVal.num p.1, JSVal.num p.2]))

/-- Invariant of the id-keyed map built by findPointsInViewport: keys are
pairwise distinct, every stored point carries its key as id, and no key is
the falsy id 0. -/
def goodMap (m : List (ℤ × Point)) : Prop :=
  (m.map Prod.fst).Nodup ∧ ∀ kv ∈ m, kv.2.id = kv.1 ∧ kv.1 ≠ 0

/-! ## Supporting lemmas -/

lemma toRadians_zero : toRadians 0 = 0 := by
  simp [toRadians]

lemma havTerm_comm (p q : Coord) : havTerm p q = havTerm q p := by
  unfold havTerm toRadians
  have h1 : (p.2 - q.2) * Real.pi / 180 / 2 = -((q.2 - p.2) * Real.pi / 180 / 2) := by ring
  have h2 : (p.1 - q.1) * Real.pi / 180 / 2 = -((q.1 - p.1) * Real.pi / 180 / 2) := by ring
  rw [h1, h2]
  simp only [Real.sin_neg]
  ring

lemma atan2_zero_one : atan2 0 1 = 0 := by
  unfold atan2
  rw [if_pos one_pos]
  simp [Real.arctan_zero]

lemma haversine_of_havTerm_zero (p q : Coord) (h : havTerm p q = 0) :
    haversineDistance p q = 0 := by
  unfold haversineDistance
  rw [h, Real.sqrt_zero, sub_zero, Real.sqrt_one, atan2_zero_one]
  ring

lemma havTerm_self (p : Coord) : havTerm p p = 0 := by
  unfold havTerm
  simp [toRadians_zero]

/-! ## Claim theorems -/

/-- C9: for every point p and segment endpoint s, pointToLineDistance p s s
equals haversineDistance p s (a degenerate zero-length segment reduces to the
great-circle distance to the endpoint). -/
theorem pointToLineDistance_degenerate (p s : Coord) :
    pointToLineDistance p s s = haversineDistance p s := by
  unfold pointToLineDistance
  rw [if_pos ⟨rfl, rfl⟩]

/-- C5 counterexample: haversineDistance is 0 on the two distinct points
(0, 90) and (1, 90) (both at latitude 90 degrees), so the claimed equivalence
"haversineDistance a b = 0 iff a = b" fails on the code. -/
theorem haversineDistance_zero_on_distinct_points :
    haversineDistance ((0 : ℝ), (90 : ℝ)) ((1 : ℝ), (90 : ℝ)) = 0 ∧
      ((0 : ℝ), (90 : ℝ)) ≠ ((1 : ℝ), (90 : ℝ)) := by
  constructor
  · apply haversine_of_havTerm_zero
    unfold havTerm toRadians
    have h90 : (90 : ℝ) * Real.pi / 180 = Real.pi / 2 := by ring
    simp [h90, Real.cos_pi_div_two]
  · intro h
    have := congrArg Prod.fst h
    norm_num at this

/-- C5 (amended): haversineDistance is symmetric in its two arguments, and
haversineDistance a a = 0 for every coordinate pair a; the converse direction
of the original claim (distance 0 only at equal points) is false, as the
counterexample shows. -/
theorem haversineDistance_symm_and_self_zero (p q : Coord) :
    haversineDistance p q = haversineDistance q p ∧ haversineDistance p p = 0 := by
  constructor
  · unfold haversineDistance
    rw [havTerm_comm]
  · exact haversine_of_havTerm_zero p p (havTerm_self p)

set_option linter.unnecessarySeqFocus false in
/-- C3: getRoutes returns the cached dataset whenever one exists and its age
is below the TTL (independently of the fetch outcome, with the state
unchanged); when the fetch fails it returns the cached dataset regardless of
age if one exists; it fails with the dataset-unavailable error exactly when
the fetch fails and no cached dataset exists; and in every failure-fallback
case the cached state is unchanged. -/
theorem getRoutes_spec (st : CacheState) (now : ℤ) (fetch : Except Unit (List Route)) :
    (∀ d, st.cachedData = some d → now - st.lastFetchTime < CACHE_TTL →
      getRoutes st now fetch = (Except.ok d, st)) ∧
    (∀ d, st.cachedData = some d → fetch = Except.error () →
      getRoutes st now fetch = (Except.ok d, st)) ∧
    ((getRoutes st now fetch).1 = Except.error () ↔
      fetch = Except.error () ∧ st.cachedData = none) ∧
    (fetch = Except.error () → (getRoutes st now fetch).2 = st) := by
  unfold getRoutes
  rcases hc : st.cachedData with _ | d <;> rcases hf : fetch with e | data <;>
    simp_all <;> split <;> simp_all

lemma distLoop_inside (inPoly : Coord → List (List Coord) → Bool) (q : Coord) :
    ∀ (pts : List Point) (m : WithTop ℝ),
      (∃ c ∈ pts.filterMap (fun p => ensureNumericCoordinates p.region), inPoly q c = true) →
      distLoop inPoly q pts m = 0 := by
  intro pts
  induction pts with
  | nil => intro m h; simp at h
  | cons p rest ih =>
    intro m h
    obtain ⟨c, hc, hin⟩ := h
    cases hreg : ensureNumericCoordinates p.region with
    | none =>
      simp only [List.filterMap_cons, hreg] at hc
      simp only [distLoop, hreg]
      exact ih m ⟨c, hc, hin⟩
    | some clean =>
      by_cases hp : inPoly q clean = true
      · simp [distLoop, hreg, hp]
      · have hc2 : c ∈ rest.filterMap (fun p => ensureNumericCoordinates p.region) := by
          simp only [List.filterMap_cons, hreg, List.mem_cons] at hc
          rcases hc with rfl | hc
          · exact absurd hin hp
          · exact hc
        simp only [distLoop, hreg]
        rw [if_neg hp]
        exact ih _ ⟨c, hc2, hin⟩

lemma distLoop_fold (inPoly : Coord → List (List Coord) → Bool) (q : Coord) :
    ∀ (pts : List Point) (m : WithTop ℝ),
      (∀ c ∈ pts.filterMap (fun p => ensureNumericCoordinates p.region), inPoly q c = false) →
      distLoop inPoly q pts m =
        (pts.filterMap (fun p => ensureNumericCoordinates p.region)).foldl
          (fun acc c => min (calculateMinimumDistanceManually q c) acc) m := by
  intro pts
  induction pts with
  | nil => intro m _; simp [distLoop]
  | cons p rest ih =>
    intro m h
    cases hreg : ensureNumericCoordinates p.region with
    | none =>
      simp only [distLoop, hreg, List.filterMap_cons]
      exact ih m (fun c hc => h c (by simp only [List.filterMap_cons, hreg]; exact hc))
    | some clean =>
      have hp : inPoly q clean = false :=
        h clean (by simp [List.filterMap_cons, hreg])
      simp only [distLoop, hreg, List.filterMap_cons, List.foldl_cons]
      rw [if_neg (by simp [hp])]
      exact ih _ (fun c hc =>
        h c (by simp only [List.filterMap_cons, hreg, List.mem_cons]; exact Or.inr hc))

/-- C1: for every route with an iterable point list and every query point,
calculateDistanceToRoute returns 0 as soon as the query point lies (per the
point-in-polygon collaborator) inside the polygon of any usable region of the
route; when no usable region contains the point it returns the running
minimum, over every usable region, of the minimum point-to-segment distance
over every edge of every sanitized ring of that region; and it returns
Infinity when the route has no usable region at all, unusable regions being
skipped rather than aborting the route. -/
theorem calculateDistanceToRoute_spec (inPoly : Coord → List (List Coord) → Bool)
    (route : Route) (q : Coord) (pts : List Point)
    (hpts : route.pointsOnRoutes = some pts) :
    ((∃ c ∈ pts.filterMap (fun p => ensureNumericCoordinates p.region), inPoly q c = true) →
      calculateDistanceToRoute inPoly route q = Except.ok 0) ∧
    ((∀ c ∈ pts.filterMap (fun p => ensureNumericCoordinates p.region), inPoly q c = false) →
      calculateDistanceToRoute inPoly route q =
        Except.ok ((pts.filterMap (fun p => ensureNumericCoordinates p.region)).foldl
          (fun acc c => min (calculateMinimumDistanceManually q c) acc) ⊤)) ∧
    (pts.filterMap (fun p => ensureNumericCoordinates p.region) = [] →
      calculateDistanceToRoute inPoly route q = Except.ok ⊤) := by
  have hcal : calculateDistanceToRoute inPoly route q = Except.ok (distLoop inPoly q pts ⊤) := by
    unfold calculateDistanceToRoute
    rw [hpts]
  refine ⟨fun h => ?_, fun h => ?_, fun h => ?_⟩
  · rw [hcal, distLoop_inside inPoly q pts ⊤ h]
  · rw [hcal, distLoop_fold inPoly q pts ⊤ h]
  · rw [hcal, distLoop_fold inPoly q pts ⊤ (fun c hc => by rw [h] at hc; simp at hc), h]
    rfl

/-- Witness for C1 at a route with an empty (hence usable-region-free) point
list: the returned distance is Infinity. -/
theorem calculateDistanceToRoute_spec_witness :
    (Route.mk 1 (some [])).pointsOnRoutes = some [] ∧
      calculateDistanceToRoute (fun _ _ => false) (Route.mk 1 (some []))
        ((0 : ℝ), (0 : ℝ)) = Except.ok ⊤ :=
  ⟨rfl, (calculateDistanceToRoute_spec (fun _ _ => false) (Route.mk 1 (some []))
    ((0 : ℝ), (0 : ℝ)) [] rfl).2.2 rfl⟩

/-- C2: for every dataset, query point and count k at least 1,
findNearestRoutes returns exactly min k n routes (n the dataset size), whose
assigned distances (the distanceToRoute value, Infinity for a route whose
evaluation throws) are non-decreasing along the result; and when k covers the
whole dataset the result is a permutation of it, so no route, including the
throwing ones, is dropped from consideration. -/
theorem findNearestRoutes_spec (inPoly : Coord → List (List Coord) → Bool)
    (routes : List Route) (q : Coord) (k : ℕ) (_hk : 1 ≤ k) :
    (findNearestRoutes inPoly routes q k).length = min k routes.length ∧
    List.Pairwise (fun a b => a ≤ b)
      ((findNearestRoutes inPoly routes q k).map (assignedDistance inPoly q)) ∧
    (routes.length ≤ k → (findNearestRoutes inPoly routes q k).Perm routes) := by
  unfold findNearestRoutes
  set rwd := routes.map (fun r => (r, assignedDistance inPoly q r)) with hrwd
  set sorted := List.insertionSort (fun a b => a.2 ≤ b.2) rwd with hsorted
  have hperm : sorted.Perm rwd := List.perm_insertionSort _ rwd
  have hsort : List.Sorted (fun (a b : Route × WithTop ℝ) => a.2 ≤ b.2) sorted :=
    List.sorted_insertionSort _ rwd
  have hlen : sorted.length = routes.length := by
    rw [hperm.length_eq, hrwd, List.length_map]
  refine ⟨?_, ?_, ?_⟩
  · rw [List.length_map, List.length_take, hlen]
  · rw [List.map_map]
    have hmemeq : ∀ x ∈ sorted.take k,
        (assignedDistance inPoly q ∘ fun x => x.1) x = x.2 := by
      intro x hx
      have hx2 : x ∈ rwd := hperm.subset (List.take_subset k sorted hx)
      rw [hrwd] at hx2
      obtain ⟨r, _, rfl⟩ := List.mem_map.mp hx2
      rfl
    rw [List.map_congr_left hmemeq]
    exact List.pairwise_map.mpr (hsort.sublist (List.take_sublist k sorted))
  · intro hle
    show ((sorted.take k).map (fun x => x.1)).Perm routes
    rw [List.take_of_length_le (by rw [hlen]; exact hle)]
    have hmap : (sorted.map (fun x => x.1)).Perm (rwd.map (fun x => x.1)) :=
      hperm.map _
    have hid : ∀ l : List Route,
        (l.map (fun r => (r, assignedDistance inPoly q r))).map (fun x => x.1) = l := by
      intro l
      induction l with
      | nil => rfl
      | cons a t ih => simp only [List.map_cons, ih]
    rw [hrwd, hid routes] at hmap
    exact hmap

/-- Witness for C2 at a one-route dataset and k equal to 1. -/
theorem findNearestRoutes_spec_witness :
    1 ≤ 1 ∧
    ((findNearestRoutes (fun _ _ => false) [Route.mk 1 (some [])] ((0 : ℝ), (0 : ℝ)) 1).length
        = min 1 [Route.mk 1 (some [])].length ∧
      List.Pairwise (fun a b => a ≤ b)
        ((findNearestRoutes (fun _ _ => false) [Route.mk 1 (some [])]
          ((0 : ℝ), (0 : ℝ)) 1).map
          (assignedDistance (fun _ _ => false) ((0 : ℝ), (0 : ℝ)))) ∧
      ([Route.mk 1 (some [])].length ≤ 1 →
        (findNearestRoutes (fun _ _ => false) [Route.mk 1 (some [])]
          ((0 : ℝ), (0 : ℝ)) 1).Perm [Route.mk 1 (some [])])) :=
  ⟨le_refl 1, findNearestRoutes_spec (fun _ _ => false) [Route.mk 1 (some [])]
    ((0 : ℝ), (0 : ℝ)) 1 (le_refl 1)⟩

/-- C4 counterexample: the ring whose usable points are (0,0), (0,0), (1,1)
has only two distinct usable points, yet the sanitizer keeps it (closing it
with a copy of the first point) instead of dropping it, so the claim that
every ring with fewer than three distinct usable points is dropped fails on
the code. -/
theorem sanitizer_keeps_nondistinct_ring :
    ensureNumericCoordinates
        (some [some [some [JSVal.num 0, JSVal.num 0],
                     some [JSVal.num 0, JSVal.num 0],
                     some [JSVal.num 1, JSVal.num 1]]])
      = some [[((0 : ℝ), (0 : ℝ)), ((0 : ℝ), (0 : ℝ)), ((1 : ℝ), (1 : ℝ)),
               ((0 : ℝ), (0 : ℝ))]] ∧
    ¬ ([((0 : ℝ), (0 : ℝ)), ((0 : ℝ), (0 : ℝ)), ((1 : ℝ), (1 : ℝ))] : List Coord).Nodup := by
  constructor
  · have hclean :
        ([some [JSVal.num 0, JSVal.num 0], some [JSVal.num 0, JSVal.num 0],
          some [JSVal.num 1, JSVal.num 1]] : List RawPos).filterMap sanitizePos
          = [((0 : ℝ), (0 : ℝ)), ((0 : ℝ), (0 : ℝ)), ((1 : ℝ), (1 : ℝ))] := rfl
    have hclose :
        closeRing [((0 : ℝ), (0 : ℝ)), ((0 : ℝ), (0 : ℝ)), ((1 : ℝ), (1 : ℝ))]
          = [((0 : ℝ), (0 : ℝ)), ((0 : ℝ), (0 : ℝ)), ((1 : ℝ), (1 : ℝ)),
             ((0 : ℝ), (0 : ℝ))] := by
      unfold closeRing
      norm_num
    have hring :
        sanitizeRing (some [some [JSVal.num 0, JSVal.num 0],
            some [JSVal.num 0, JSVal.num 0], some [JSVal.num 1, JSVal.num 1]])
          = some [((0 : ℝ), (0 : ℝ)), ((0 : ℝ), (0 : ℝ)), ((1 : ℝ), (1 : ℝ)),
                  ((0 : ℝ), (0 : ℝ))] := by
      unfold sanitizeRing
      simp only [hclean, hclose]
      norm_num
    unfold ensureNumericCoordinates
    simp only [List.filterMap_cons, hring, List.filterMap_nil]
    norm_num
  · simp

/-- C4 (amended): the sanitizer drops every ring that has fewer than 3 usable
points, points not necessarily distinct (a non-array candidate ring is also
dropped), and ensureNumericCoordinates returns None exactly when every ring
of the list is dropped. -/
theorem ensureNumericCoordinates_drop_spec (rs : List RawRing) :
    (∀ pts : List RawPos, (pts.filterMap sanitizePos).length < 3 →
      sanitizeRing (some pts) = none) ∧
    sanitizeRing none = none ∧
    (ensureNumericCoordinates (some rs) = none ↔ ∀ r ∈ rs, sanitizeRing r = none) := by
  refine ⟨?_, rfl, ?_⟩
  · intro pts h
    unfold sanitizeRing
    simp only
    rw [if_neg (by omega)]
  · unfold ensureNumericCoordinates
    simp only
    by_cases h : 0 < (rs.filterMap sanitizeRing).length
    · rw [if_pos h]
      constructor
      · intro hsome
        exact absurd hsome (by simp)
      · intro hall
        exfalso
        have : rs.filterMap sanitizeRing = [] := List.filterMap_eq_nil_iff.mpr hall
        rw [this] at h
        exact absurd h (by simp)
    · rw [if_neg h]
      have hnil : rs.filterMap sanitizeRing = [] := by
        have := Nat.eq_zero_of_not_pos h
        exact List.length_eq_zero.mp this
      exact iff_of_true rfl (List.filterMap_eq_nil_iff.mp hnil)

/-- Witness for C4 at the empty ring list: no ring survives, so the result is
None. -/
theorem ensureNumericCoordinates_drop_spec_witness :
    ensureNumericCoordinates (some ([] : List RawRing)) = none :=
  (ensureNumericCoordinates_drop_spec []).2.2.mpr (by simp)

lemma filterMap_sanitizePos_embed (r : List Coord) :
    (r.map (fun p => some [JSVal.num p.1, JSVal.num p.2])).filterMap sanitizePos = r := by
  induction r with
  | nil => rfl
  | cons p t ih => simp [List.filterMap_cons, ih, show sanitizePos
      (some [JSVal.num p.1, JSVal.num p.2]) = some p from rfl]

lemma closeRing_of_closed (r : List Coord) (hcl : r.head? = r.getLast?) :
    closeRing r = r := by
  cases r with
  | nil => rfl
  | cons f t =>
    have hh : (f :: t).head? = some f := rfl
    simp only [closeRing, ← hcl, hh]
    simp

lemma sanitizeRing_embed (r : List Coord) (h4 : 4 ≤ r.length)
    (hcl : r.head? = r.getLast?) : sanitizeRing (embedRing r) = some r := by
  have h3 : 3 ≤ r.length := by omega
  unfold sanitizeRing embedRing
  simp only [filterMap_sanitizePos_embed]
  rw [closeRing_of_closed r hcl, if_pos h3, if_pos h4]

/-- C8 counterexample: the empty ring list vacuously satisfies the validity
hypotheses of the idempotence claim (every ring closed, numeric, of length at
least 4), yet the sanitizer returns None on it rather than Some of its input,
so the claim fails for the empty ring list. -/
theorem ensureNumericCoordinates_empty_input :
    ensureNumericCoordinates (some (([] : List (List Coord)).map embedRing)) = none := rfl

/-- C8 (amended): the sanitizer is idempotent on non-empty valid input: for
every non-empty ring list whose rings are already closed (first point equals
last), all-numeric, and of length at least 4, sanitizing its raw embedding
returns Some of exactly the input ring list. -/
theorem ensureNumericCoordinates_idempotent (rs : List (List Coord)) (hne : rs ≠ [])
    (hval : ∀ r ∈ rs, 4 ≤ r.length ∧ r.head? = r.getLast?) :
    ensureNumericCoordinates (some (rs.map embedRing)) = some rs := by
  have hfm : ∀ l : List (List Coord),
      (∀ r ∈ l, 4 ≤ r.length ∧ r.head? = r.getLast?) →
      (l.map embedRing).filterMap sanitizeRing = l := by
    intro l hl
    induction l with
    | nil => rfl
    | cons a t ih =>
      have ha := hl a (List.mem_cons_self a t)
      simp [List.filterMap_cons, sanitizeRing_embed a ha.1 ha.2,
        ih (fun r hr => hl r (List.mem_cons_of_mem a hr))]
  unfold ensureNumericCoordinates
  simp only [hfm rs hval]
  rw [if_pos (List.length_pos.mpr hne)]

/-- Witness for C8 at a concrete unit-square ring list. -/
theorem ensureNumericCoordinates_idempotent_witness :
    ensureNumericCoordinates
        (some ([[((0 : ℝ), (0 : ℝ)), ((0 : ℝ), (1 : ℝ)), ((1 : ℝ), (1 : ℝ)),
                 ((0 : ℝ), (0 : ℝ))]].map embedRing))
      = some [[((0 : ℝ), (0 : ℝ)), ((0 : ℝ), (1 : ℝ)), ((1 : ℝ), (1 : ℝ)),
               ((0 : ℝ), (0 : ℝ))]] := by
  apply ensureNumericCoordinates_idempotent
  · simp
  · intro r hr
    rw [List.mem_singleton] at hr
    subst hr
    exact ⟨by norm_num, rfl⟩

lemma viewportLoop_good (inView : Point → Bool) :
    ∀ (pts : List Point) (m : List (ℤ × Point)), goodMap m →
      goodMap (viewportLoop inView pts m) := by
  intro pts
  induction pts with
  | nil => intro m hm; simpa [viewportLoop] using hm
  | cons p rest ih =>
    intro m hm
    by_cases h1 : p.id ≠ 0 ∧ m.any (fun kv => kv.1 == p.id)
    · simp only [viewportLoop, if_pos h1]
      exact ih m hm
    · by_cases h2 : inView p = true
      · by_cases h3 : p.id ≠ 0
        · have hnotin : ∀ kv ∈ m, kv.1 ≠ p.id := by
            intro kv hkv heq
            exact h1 ⟨h3, List.any_eq_true.mpr ⟨kv, hkv, by simp [heq]⟩⟩
          simp only [viewportLoop, if_neg h1, if_pos h2, if_pos h3]
          apply ih
          constructor
          · rw [List.map_append, List.nodup_append]
            refine ⟨hm.1, by simp, ?_⟩
            intro a ha hb
            obtain ⟨kv, hkv, rfl⟩ := List.mem_map.mp ha
            simp only [List.map_cons, List.map_nil, List.mem_singleton] at hb
            exact hnotin kv hkv hb
          · intro kv hkv
            rcases List.mem_append.mp hkv with h | h
            · exact hm.2 kv h
            · rw [List.mem_singleton] at h
              subst h
              exact ⟨rfl, h3⟩
        · simp only [viewportLoop, if_neg h1, if_pos h2, if_neg h3]
          exact ih m hm
      · simp only [viewportLoop, if_neg h1, if_neg h2]
        exact ih m hm

lemma vpRoutes_good (inView : Point → Bool) :
    ∀ (rs : List Route) (m acc : List (ℤ × Point)), goodMap m →
      vpRoutes inView rs m = Except.ok acc → goodMap acc := by
  intro rs
  induction rs with
  | nil =>
    intro m acc hm h
    simp only [vpRoutes, Except.ok.injEq] at h
    subst h
    exact hm
  | cons r rest ih =>
    intro m acc hm h
    cases hr : r.pointsOnRoutes with
    | none => simp [vpRoutes, hr] at h
    | some pts =>
      simp only [vpRoutes, hr] at h
      exact ih _ acc (viewportLoop_good inView pts m hm) h

/-- C6: findPointsInViewport never returns two Points with the same
identifier: whenever the call succeeds, the identifiers of the returned
points are pairwise distinct, for every dataset, viewport and intersection
collaborator. -/
theorem findPointsInViewport_unique
    (intersects : List (List Coord) → List (List Coord) → Bool)
    (routes : List Route) (lng1 lat1 lng2 lat2 : ℝ) (res : List Point)
    (h : findPointsInViewport intersects routes lng1 lat1 lng2 lat2 = Except.ok res) :
    (res.map Point.id).Nodup := by
  unfold findPointsInViewport at h
  have h2 : (match vpRoutes
      (fun p => isPointInViewport intersects p
        (bboxPolygon (min lng1 lng2) (min lat1 lat2) (max lng1 lng2) (max lat1 lat2)))
      routes [] with
    | Except.ok m => Except.ok (m.map (fun kv => kv.2))
    | Except.error e => (Except.error e : Except Unit (List Point))) = Except.ok res := h
  cases hv : vpRoutes
      (fun p => isPointInViewport intersects p
        (bboxPolygon (min lng1 lng2) (min lat1 lat2) (max lng1 lng2) (max lat1 lat2)))
      routes [] with
  | error e => rw [hv] at h2; simp at h2
  | ok m =>
    rw [hv] at h2
    simp only [Except.ok.injEq] at h2
    subst h2
    have hg : goodMap m :=
      vpRoutes_good _ routes [] m ⟨by simp, by simp⟩ hv
    rw [List.map_map]
    have heq : m.map (Point.id ∘ fun kv => kv.2) = m.map Prod.fst :=
      List.map_congr_left (fun kv hkv => (hg.2 kv hkv).1)
    rw [heq]
    exact hg.1

/-- Witness for C6 at the empty dataset. -/
theorem findPointsInViewport_unique_witness :
    findPointsInViewport (fun _ _ => true) [] 0 0 1 1 = Except.ok [] ∧
      (([] : List Point).map Point.id).Nodup :=
  ⟨rfl, findPointsInViewport_unique (fun _ _ => true) [] 0 0 1 1 [] rfl⟩

/-- C7: findPointsInViewport gives the same result when the two corners are
exchanged: the bounding box is built from the componentwise minima and maxima
of the two corners, so corner order is irrelevant. -/
theorem findPointsInViewport_corner_order
    (intersects : List (List Coord) → List (List Coord) → Bool)
    (routes : List Route) (lng1 lat1 lng2 lat2 : ℝ) :
    findPointsInViewport intersects routes lng1 lat1 lng2 lat2
      = findPointsInViewport intersects routes lng2 lat2 lng1 lat1 := by
  unfold findPointsInViewport
  rw [min_comm lng2 lng1, min_comm lat2 lat1, max_comm lng2 lng1, max_comm lat2 lat1]

/-- C10: a Point whose identifier is the falsy value 0 is never part of a
successful findPointsInViewport result, whatever its region and the
intersection collaborator do: every returned point has a truthy (non-zero)
identifier. -/
theorem findPointsInViewport_truthy
    (intersects : List (List Coord) → List (List Coord) → Bool)
    (routes : List Route) (lng1 lat1 lng2 lat2 : ℝ) (res : List Point)
    (h : findPointsInViewport intersects routes lng1 lat1 lng2 lat2 = Except.ok res) :
    ∀ p ∈ res, p.id ≠ 0 := by
  unfold findPointsInViewport at h
  have h2 : (match vpRoutes
      (fun p => isPointInViewport intersects p
        (bboxPolygon (min lng1 lng2) (min lat1 lat2) (max lng1 lng2) (max lat1 lat2)))
      routes [] with
    | Except.ok m => Except.ok (m.map (fun kv => kv.2))
    | Except.error e => (Except.error e : Except Unit (List Point))) = Except.ok res := h
  cases hv : vpRoutes
      (fun p => isPointInViewport intersects p
        (bboxPolygon (min lng1 lng2) (min lat1 lat2) (max lng1 lng2) (max lat1 lat2)))
      routes [] with
  | error e => rw [hv] at h2; simp at h2
  | ok m =>
    rw [hv] at h2
    simp only [Except.ok.injEq] at h2
    subst h2
    have hg : goodMap m :=
      vpRoutes_good _ routes [] m ⟨by simp, by simp⟩ hv
    intro p hp
    obtain ⟨kv, hkv, rfl⟩ := List.mem_map.mp hp
    have := hg.2 kv hkv
    rw [this.1]
    exact this.2

/-- Witness for C10 at a dataset containing one point with the falsy id 0;
the point is not returned. -/
theorem findPointsInViewport_truthy_witness :
    findPointsInViewport (fun _ _ => true) [Route.mk 7 (some [Point.mk 0 none])] 0 0 1 1
      = Except.ok [] ∧ ∀ p ∈ ([] : List Point), p.id ≠ 0 :=
  ⟨rfl, findPointsInViewport_truthy (fun _ _ => true)
    [Route.mk 7 (some [Point.mk 0 none])] 0 0 1 1 [] rfl⟩

/-- Witness for C3 at a concrete cache state, time and failing fetch. -/
theorem getRoutes_spec_witness :
    (⟨some [], 0⟩ : CacheState).cachedData = some [] ∧
      getRoutes ⟨some [], 0⟩ 1 (Except.error ()) =
        (Except.ok [], (⟨some [], 0⟩ : CacheState)) :=
  ⟨rfl, (getRoutes_spec ⟨some [], 0⟩ 1 (Except.error ())).2.1 [] rfl rfl⟩

end Codeasy
